import Mathlib

/-!
# Adafruit_GPS: check codes, identifier tables, timestamps, checksums and
# coordinate decoding

A shallow embedding of the declarations of `src/Adafruit_GPS.h`: the
`nmea_check_t` codes, the identifier-size macros, the three identifier
tables of the class and the in-class initialisers of its `millis()`
timestamps.  The bodies of `check`, `addChecksum`, `parse` and of the
`secondsSince...` queries are not part of the header; they are modelled
from the design document, and every such definition says so.  The
floating-point members are values of a binary floating-point type, and the
conversions that produce them are parameters of the decoder.
-/

namespace Adafruit_GPS

/-! ## Macros -/

/-- The macro `NMEA_MAX_SOURCE_ID`: maximum length of a source ID name,
including terminating 0. -/
def NMEA_MAX_SOURCE_ID : Nat := 3

/-! ## The result codes of `check` -/

/-- The enumeration `nmea_check_t`, the type for the resulting code from
running `check`. -/
inductive nmea_check_t where
  | NMEA_BAD
  | NMEA_HAS_DOLLAR
  | NMEA_HAS_CHECKSUM
  | NMEA_HAS_NAME
  | NMEA_HAS_SOURCE
  | NMEA_HAS_SENTENCE
  | NMEA_HAS_SENTENCE_P
  deriving DecidableEq, Repr

namespace nmea_check_t

/-- The integer value the header gives each enumerator (all literals are
decimal). -/
def val : nmea_check_t → Nat
  | NMEA_BAD => 0
  | NMEA_HAS_DOLLAR => 1
  | NMEA_HAS_CHECKSUM => 2
  | NMEA_HAS_NAME => 4
  | NMEA_HAS_SOURCE => 10
  | NMEA_HAS_SENTENCE => 20
  | NMEA_HAS_SENTENCE_P => 40

end nmea_check_t

open nmea_check_t

/-- The six check-result flags, in declaration order (`NMEA_BAD`, the code
for "passed none of the checks", is not one of them). -/
def checkFlags : List nmea_check_t :=
  [NMEA_HAS_DOLLAR, NMEA_HAS_CHECKSUM, NMEA_HAS_NAME,
   NMEA_HAS_SOURCE, NMEA_HAS_SENTENCE, NMEA_HAS_SENTENCE_P]

/-- The subset of the six flags selected by the predicate `S`. -/
def flagSubset (S : nmea_check_t → Bool) : List nmea_check_t :=
  checkFlags.filter S

/-- Bitwise OR of the values of a list of codes. -/
def orOf (fs : List nmea_check_t) : Nat :=
  fs.foldl (fun acc f => acc ||| f.val) 0

/-- Arithmetic sum of the values of a list of codes. -/
def sumOf (fs : List nmea_check_t) : Nat :=
  fs.foldl (fun acc f => acc + f.val) 0

/-- Reading one flag back out of a summed code `v`: the flags below ten
occupy the units digit of `v`, the others its tens digit, and inside a
digit the flag is the bit `1`, `2` or `4`. -/
def digitTest (v : Nat) (f : nmea_check_t) : Bool :=
  if f.val < 10 then (v % 10) &&& f.val != 0
  else (v / 10 % 10) &&& (f.val / 10) != 0

/-! ## Identifier tables -/

/-- The member `sources`: valid source ids. -/
def sources : List String := ["II", "WI", "GP", "GN", "ZZZ"]

/-- The member `sentences_parsed`: parseable sentence ids. -/
def sentences_parsed : List String := ["GGA", "GLL", "GSA", "RMC", "ZZZ"]

/-- The member `sentences_known`: known, but not parseable sentence ids. -/
def sentences_known : List String := ["ZZZ"]

/-- Number of `char`s needed to store the C string `s` with its
terminating 0. -/
def storageSize (s : String) : Nat := s.length + 1

/-- A first-match scan of a table for an entry that is a prefix of
`token`. -/
def firstPrefixMatch (table : List String) (token : List Char) : Option String :=
  table.find? (fun s => s.toList.isPrefixOf token)

/-- A first-match scan of a table for an entry equal to `id`. -/
def firstExactMatch (table : List String) (id : String) : Option String :=
  table.find? (fun s => s == id)

/-- Outcome of classifying a sentence id against the two sentence tables. -/
inductive SentenceClass where
  | unrecognized
  | known
  | parseable
  deriving DecidableEq, Repr

/-- Classification of a sentence id by searching the two sentence tables one
after the other; `parsedFirst` selects which table is searched first. -/
def classifySentence (parsedFirst : Bool) (id : String) : SentenceClass :=
  if parsedFirst then
    if (firstExactMatch sentences_parsed id).isSome then SentenceClass.parseable
    else if (firstExactMatch sentences_known id).isSome then SentenceClass.known
    else SentenceClass.unrecognized
  else
    if (firstExactMatch sentences_known id).isSome then SentenceClass.known
    else if (firstExactMatch sentences_parsed id).isSome then SentenceClass.parseable
    else SentenceClass.unrecognized

/-! ## Timestamps -/

/-- Width of `uint32_t`. -/
def UINT32_RANGE : Nat := 2 ^ 32

/-- The six `uint32_t` members that hold `millis()` readings. -/
structure Timestamps where
  lastUpdate : Nat
  lastFix : Nat
  lastTime : Nat
  lastDate : Nat
  recvdTime : Nat
  sentTime : Nat
  deriving DecidableEq, Repr

/-- The in-class initialisers: every timestamp starts at `2000000000L`
converted to `uint32_t`. -/
def Timestamps.init : Timestamps :=
  { lastUpdate := 2000000000 % UINT32_RANGE
    lastFix := 2000000000 % UINT32_RANGE
    lastTime := 2000000000 % UINT32_RANGE
    lastDate := 2000000000 % UINT32_RANGE
    recvdTime := 2000000000 % UINT32_RANGE
    sentTime := 2000000000 % UINT32_RANGE }

/-- Modelled from the spec: the body of `secondsSinceFix`, `secondsSinceTime`
and `secondsSinceDate` is missing from the header; the design document
computes each as `(nowTimestamp - lastEventTimestamp)`, here the `uint32_t`
subtraction of two `millis()` readings, which wraps modulo `2 ^ 32`. -/
def elapsedMillis (now last : Nat) : Nat :=
  (now % UINT32_RANGE + UINT32_RANGE - last % UINT32_RANGE) % UINT32_RANGE

/-! ## Checksums and sentence validation

The header only declares `addChecksum` and `check`; the definitions below
follow sections 4.2 and 4.4 of the design document.  A C string is a list
of characters, its terminating 0 left implicit. -/

/-- Exclusive-or of the character values of a string. -/
def xorChecksum (cs : List Char) : Nat :=
  cs.foldl (fun acc c => acc ^^^ c.toNat) 0

/-- The uppercase hexadecimal digit of a value below sixteen. -/
def hexDigit (n : Nat) : Char :=
  if n < 10 then Char.ofNat (48 + n) else Char.ofNat (55 + n)

/-- The two uppercase hexadecimal digits of a byte. -/
def hexByte (n : Nat) : List Char :=
  [hexDigit (n / 16), hexDigit (n % 16)]

/-- Modelled from the spec: the body of `addChecksum` is missing from the
header.  Section 4.4: it "computes the exclusive-or checksum over all
characters from just after `$` to just before the (to-be-appended) `*`,
appends `*`, two uppercase hex digits, then CR+LF". -/
def addChecksum (buff : List Char) : List Char :=
  buff ++ '*' :: hexByte (xorChecksum (buff.drop 1)) ++ [Char.ofNat 13, Char.ofNat 10]

/-- The characters of a line between its first character and the first `*`. -/
def checksumSpan (nmea : List Char) : List Char :=
  (nmea.drop 1).takeWhile (fun c => c != '*')

/-- The line from its first `*` (after the first character) onwards. -/
def checksumTail (nmea : List Char) : List Char :=
  (nmea.drop 1).dropWhile (fun c => c != '*')

/-- Step 2 of `check`: a `*` is present, two characters follow it, and they
equal, case-insensitively, the hex encoding of the exclusive-or of the
characters between `$` and `*`. -/
def checksumValid (nmea : List Char) : Bool :=
  match checksumTail nmea with
  | _ :: h1 :: h2 :: _ =>
    [h1.toUpper, h2.toUpper] == hexByte (xorChecksum (checksumSpan nmea))
  | _ => false

/-- The name token of a line: the characters after the first one, up to the
first comma. -/
def nameToken (nmea : List Char) : List Char :=
  (nmea.drop 1).takeWhile (fun c => c != ',')

/-- Step 3 of `check`: a name token of length at most 5, terminated by a
comma, exists. -/
def nameTerminated (nmea : List Char) : Bool :=
  ((nmea.drop 1).dropWhile (fun c => c != ',')).head? == some ',' &&
    decide ((nameToken nmea).length ≤ 5)

/-- Step 4 of `check`: the source id of a name token, the 3-character
entries of `sources` being tried before the 2-character ones. -/
def recognizedSource (name : List Char) : Option String :=
  match firstPrefixMatch (sources.filter (fun s => s.length == 3)) name with
  | some s => some s
  | none => firstPrefixMatch (sources.filter (fun s => s.length == 2)) name

/-- Step 5 of `check`: the class of the remainder of the name token after
the matched source, the parseable table being searched first; there is no
remainder to classify when no source matched. -/
def sentenceClassOf (name : List Char) : SentenceClass :=
  match recognizedSource name with
  | some src => classifySentence true (String.mk (name.drop src.length))
  | none => SentenceClass.unrecognized

/-- Modelled from the spec: the six checks of section 4.2, one per flag of
`nmea_check_t`; `NMEA_BAD` is not a check. -/
def passes (nmea : List Char) : nmea_check_t → Bool
  | NMEA_BAD => false
  | NMEA_HAS_DOLLAR => nmea.head? == some '$'
  | NMEA_HAS_CHECKSUM => checksumValid nmea
  | NMEA_HAS_NAME => nameTerminated nmea
  | NMEA_HAS_SOURCE => (recognizedSource (nameToken nmea)).isSome
  | NMEA_HAS_SENTENCE => sentenceClassOf (nameToken nmea) != SentenceClass.unrecognized
  | NMEA_HAS_SENTENCE_P => sentenceClassOf (nameToken nmea) == SentenceClass.parseable

/-- Modelled from the spec: the body of `check` is missing from the header.
Section 4.2: it inspects a line and produces the classification, here the
list of the flags whose check passes ("a sentence satisfies a flag if and
only if the specific structural/content check passes"). -/
def check (nmea : List Char) : List nmea_check_t :=
  flagSubset (passes nmea)

/-- The type `nmea_float_t`: a binary floating-point number, of value
`mantissa * 2 ^ exponent`. -/
structure nmea_float_t where
  mantissa : Int
  exponent : Int
  deriving DecidableEq, Repr

/-- Negation of a floating-point number, which is exact. -/
def nmea_float_t.neg (x : nmea_float_t) : nmea_float_t :=
  { x with mantissa := - x.mantissa }

/-- The floating-point operations of the platform, taken as parameters:
`ofRat` is the conversion of a decimal value to `nmea_float_t` (precision
and rounding are those of the platform), `toDegrees` the floating-point
evaluation of `whole-degrees + minutes / 60` on a raw `DDMM.MMMM` value. -/
structure FloatOps where
  ofRat : ℚ → nmea_float_t
  toDegrees : nmea_float_t → nmea_float_t

/-- The members of the class that hold the current fix. -/
structure FixState where
  hour : Nat
  minute : Nat
  seconds : Nat
  milliseconds : Nat
  year : Nat
  month : Nat
  day : Nat
  latitude : nmea_float_t
  longitude : nmea_float_t
  latitude_fixed : Int
  longitude_fixed : Int
  latitudeDegrees : nmea_float_t
  longitudeDegrees : nmea_float_t
  geoidheight : nmea_float_t
  altitude : nmea_float_t
  speed : nmea_float_t
  angle : nmea_float_t
  magvariation : nmea_float_t
  HDOP : nmea_float_t
  VDOP : nmea_float_t
  PDOP : nmea_float_t
  lat : Char
  lon : Char
  mag : Char
  fix : Bool
  fixquality : Nat
  fixquality_3d : Nat
  satellites : Nat
  deriving DecidableEq

/-- Conversion of an integer to `int32_t`. -/
def toInt32 (x : Int) : Int := (x + 2 ^ 31) % 2 ^ 32 - 2 ^ 31

/-- Modelled from the spec: `isEmpty`, an empty comma-delimited slot. -/
def isEmpty (p : List Char) : Bool := p.isEmpty

/-- Value of a string of decimal digits. -/
def digitsValue (cs : List Char) : Nat :=
  cs.foldl (fun acc c => 10 * acc + (c.toNat - 48)) 0

/-- The digits that start a field: the integer part of its numeral. -/
def intDigits (p : List Char) : List Char := p.takeWhile Char.isDigit

/-- The digits after the decimal point that follows the integer part, if
there is one. -/
def fracDigits (p : List Char) : List Char :=
  match p.dropWhile Char.isDigit with
  | [] => []
  | c :: r => if c = '.' then r.takeWhile Char.isDigit else []

/-- The decimal value written by the unsigned numeral that starts a field
(digits, optionally a point and more digits); zero when the field starts
with none.  This is the number on the wire, before any conversion to
`nmea_float_t`. -/
def decimalValue (p : List Char) : ℚ :=
  (digitsValue (intDigits p) : ℚ) +
    (digitsValue (fracDigits p) : ℚ) / 10 ^ (fracDigits p).length

/-- The decimal value written by a numeral with an optional minus sign. -/
def signedDecimalValue (p : List Char) : ℚ :=
  match p with
  | '-' :: r => - decimalValue r
  | _ => decimalValue p

/-- Whole degrees of the numeral `DDMM.MMMM`: integer division by 100 of the
value stripped of its fractional minutes. -/
def wholeDegrees (p : List Char) : Nat := digitsValue (intDigits p) / 100

/-- Minutes of the numeral `DDMM.MMMM`, the remainder, in units of
`10 ^ -k` minute, `k` being the number of fraction digits. -/
def scaledMinutes (p : List Char) : Nat :=
  digitsValue (intDigits p) % 100 * 10 ^ (fracDigits p).length + digitsValue (fracDigits p)

/-- Modelled from the spec: the fixed-point degrees of a coordinate field,
`(whole-degrees + minutes / 60) * 100000` rounded to nearest, computed on
the digits of the field in integer arithmetic (no floating-point value is
involved) and stored in an `int32_t`.  The quotient
`(2 * a + b) / (2 * b)` is `a / b` rounded to nearest. -/
def fixedOfText (p : List Char) : Int :=
  toInt32 ((wholeDegrees p * 100000 +
    (2 * (100000 * scaledMinutes p) + 60 * 10 ^ (fracDigits p).length) /
      (2 * (60 * 10 ^ (fracDigits p).length)) : Nat) : Int)

/-- Modelled from the spec: `parseLat`, the coordinate decoding rule of
section 4.3 applied to the latitude field: the raw member holds the value as
received, converted to `nmea_float_t`; an empty field gives zero. -/
def parseLat (F : FloatOps) (p : List Char) (g : FixState) : FixState :=
  { g with
    latitude := F.ofRat (decimalValue p)
    latitudeDegrees := F.toDegrees (F.ofRat (decimalValue p))
    latitude_fixed := fixedOfText p }

/-- Modelled from the spec: `parseLatDir`; `S` negates the decimal-degrees
and fixed-point latitude relative to `N`, the raw value is left as
received.  The design document is silent on other content: an empty slot is
accepted and changes nothing, any other letter is a failure. -/
def parseLatDir (p : List Char) (g : FixState) : Option FixState :=
  match p with
  | [] => some g
  | c :: _ =>
    if c = 'N' then some { g with lat := 'N' }
    else if c = 'S' then
      some { g with
        lat := 'S'
        latitudeDegrees := g.latitudeDegrees.neg
        latitude_fixed := toInt32 (- g.latitude_fixed) }
    else none

/-- Modelled from the spec: `parseLon`, the same rule on the longitude field
(`DDDMM.MMMM`). -/
def parseLon (F : FloatOps) (p : List Char) (g : FixState) : FixState :=
  { g with
    longitude := F.ofRat (decimalValue p)
    longitudeDegrees := F.toDegrees (F.ofRat (decimalValue p))
    longitude_fixed := fixedOfText p }

/-- Modelled from the spec: `parseLonDir`; `W` negates relative to `E`. -/
def parseLonDir (p : List Char) (g : FixState) : Option FixState :=
  match p with
  | [] => some g
  | c :: _ =>
    if c = 'E' then some { g with lon := 'E' }
    else if c = 'W' then
      some { g with
        lon := 'W'
        longitudeDegrees := g.longitudeDegrees.neg
        longitude_fixed := toInt32 (- g.longitude_fixed) }
    else none

/-- Modelled from the spec: `parseTime`, `HHMMSS` or `HHMMSS.sss`: fixed
2-digit groups, the fraction truncated to whole milliseconds; an empty slot
changes nothing. -/
def parseTime (p : List Char) (g : FixState) : FixState :=
  if isEmpty p then g
  else
    { g with
      hour := (⌊decimalValue p⌋.toNat / 10000) % 256
      minute := ⌊decimalValue p⌋.toNat / 100 % 100
      seconds := ⌊decimalValue p⌋.toNat % 100
      milliseconds := ⌊Int.fract (decimalValue p) * 1000⌋.toNat }

/-- Modelled from the spec: date decoding, `DDMMYY`, the two-digit year
stored as it is; an empty slot changes nothing. -/
def parseDate (p : List Char) (g : FixState) : FixState :=
  if isEmpty p then g
  else
    { g with
      day := (⌊decimalValue p⌋.toNat / 10000) % 256
      month := ⌊decimalValue p⌋.toNat / 100 % 100
      year := ⌊decimalValue p⌋.toNat % 100 }

/-- Modelled from the spec: `parseFix`, the fix-status letter mapped to the
fix-present flag (`A` valid, `V` void); an empty slot is accepted and
changes nothing, any other letter is a failure. -/
def parseFix (p : List Char) (g : FixState) : Option FixState :=
  match p with
  | [] => some g
  | c :: _ =>
    if c = 'A' then some { g with fix := true }
    else if c = 'V' then some { g with fix := false }
    else none

/-- The state a sentence decoder works on: the fix and the timestamps. -/
abbrev DecodeState := FixState × Timestamps

/-- A sentence decoder: from the floating-point operations, the fields of
the line, the current `millis()` reading and the state to the new state, or
a failure. -/
abbrev Decoder := FloatOps → List (List Char) → Nat → DecodeState → Option DecodeState

/-- Field `i` of a line (empty when the line has fewer fields). -/
def field (fs : List (List Char)) (i : Nat) : List Char := fs.getD i []

/-- A floating-point slot: an empty slot keeps the member, a filled one
stores its value converted to `nmea_float_t`. -/
def floatSlot (F : FloatOps) (p : List Char) (old : nmea_float_t) : nmea_float_t :=
  if isEmpty p then old else F.ofRat (signedDecimalValue p)

/-- Modelled from the spec: the position slots shared by the sentences that
carry one: latitude at field `i`, then its hemisphere, longitude and its
hemisphere. -/
def decodePosition (F : FloatOps) (fs : List (List Char)) (i : Nat) (g : FixState) :
    Option FixState := do
  let g ← parseLatDir (field fs (i + 1)) (parseLat F (field fs i) g)
  parseLonDir (field fs (i + 3)) (parseLon F (field fs (i + 2)) g)

/-- Modelled from the spec: the GGA decoder: time, latitude and hemisphere,
longitude and hemisphere, fix quality, satellite count, HDOP, altitude and
geoid height.  An empty slot leaves HDOP, altitude and geoid height
unchanged and makes the fix quality 0; "last fix" is stamped only when the
quality is above 0. -/
def decodeGGA : Decoder := fun F fs now st => do
  let g ← decodePosition F fs 2 (parseTime (field fs 1) st.1)
  let q := ⌊decimalValue (field fs 6)⌋.toNat % 256
  let g := { g with
    fixquality := q
    satellites := ⌊decimalValue (field fs 7)⌋.toNat % 256
    HDOP := floatSlot F (field fs 8) g.HDOP
    altitude := floatSlot F (field fs 9) g.altitude
    geoidheight := floatSlot F (field fs 11) g.geoidheight }
  some (g, if 0 < q then { st.2 with lastFix := now % UINT32_RANGE } else st.2)

/-- Modelled from the spec: the GLL decoder: latitude and hemisphere,
longitude and hemisphere, time, fix-status letter (in the field order of
NMEA 0183; the design document lists the field set only). -/
def decodeGLL : Decoder := fun F fs _ st => do
  let g ← decodePosition F fs 1 st.1
  let g ← parseFix (field fs 6) (parseTime (field fs 5) g)
  some (g, st.2)

/-- Modelled from the spec: the GSA decoder: 3D fix quality, PDOP, HDOP and
VDOP (in the field order of NMEA 0183). -/
def decodeGSA : Decoder := fun F fs _ st =>
  let g := st.1
  some ({ g with
    fixquality_3d := ⌊decimalValue (field fs 2)⌋.toNat % 256
    PDOP := floatSlot F (field fs 15) g.PDOP
    HDOP := floatSlot F (field fs 16) g.HDOP
    VDOP := floatSlot F (field fs 17) g.VDOP },
    st.2)

/-- Modelled from the spec: the RMC decoder: time, fix-status letter,
latitude and hemisphere, longitude and hemisphere, speed, course, date,
magnetic variation and its sign letter; "last time" and "last date" are
stamped when the time and date slots are filled. -/
def decodeRMC : Decoder := fun F fs now st => do
  let g ← parseFix (field fs 2) (parseTime (field fs 1) st.1)
  let g ← decodePosition F fs 3 g
  let g := parseDate (field fs 9) { g with
    speed := floatSlot F (field fs 7) g.speed
    angle := floatSlot F (field fs 8) g.angle }
  let g := { g with
    magvariation := floatSlot F (field fs 10) g.magvariation
    mag := (field fs 11).headD g.mag }
  let t := st.2
  let t := if isEmpty (field fs 1) then t else { t with lastTime := now % UINT32_RANGE }
  let t := if isEmpty (field fs 9) then t else { t with lastDate := now % UINT32_RANGE }
  some (g, t)

/-- Modelled from the spec: the dispatch of `parse` on the 3-character
sentence id, without the extended decode set: GGA, GLL, GSA and RMC have a
decoder. -/
def decoderFor (id : String) : Option Decoder :=
  if id = "GGA" then some decodeGGA
  else if id = "GLL" then some decodeGLL
  else if id = "GSA" then some decodeGSA
  else if id = "RMC" then some decodeRMC
  else none

/-- Ten is not a power of two. -/
theorem ten_not_two_pow : ¬ ∃ k : Nat, 10 = 2 ^ k := by
  rintro ⟨k, hk⟩
  rcases Nat.lt_or_ge k 4 with h | h
  · interval_cases k <;> omega
  · have : 2 ^ 4 ≤ 2 ^ k := Nat.pow_le_pow_right (by decide) h
    omega

/-- C1 (evaluation at the failing input): `NMEA_HAS_SOURCE` is the decimal
literal 10, which is not a power of two and shares bit 1 with
`NMEA_HAS_CHECKSUM`; so for the subset S = {NMEA_HAS_SOURCE} the test
`(OR of S) AND NMEA_HAS_CHECKSUM` is 2, non-zero, although
`NMEA_HAS_CHECKSUM` is not in S.  The same happens for the subset of all
flags except `NMEA_HAS_CHECKSUM`, whose OR is 63 (and whose sum is 75).
Hence the bitmask property fails: it is not the case that for every subset
and every flag the AND test is non-zero exactly for the members. -/
theorem nmea_check_flags_overlap :
    checkFlags.map nmea_check_t.val = [1, 2, 4, 10, 20, 40] ∧
    (¬ ∃ k : Nat, NMEA_HAS_SOURCE.val = 2 ^ k) ∧
    NMEA_HAS_SOURCE.val &&& NMEA_HAS_CHECKSUM.val = 2 ∧
    flagSubset (fun f => f == NMEA_HAS_SOURCE) = [NMEA_HAS_SOURCE] ∧
    orOf (flagSubset (fun f => f == NMEA_HAS_SOURCE)) &&& NMEA_HAS_CHECKSUM.val = 2 ∧
    NMEA_HAS_CHECKSUM ∉ flagSubset (fun f => f == NMEA_HAS_SOURCE) ∧
    orOf (flagSubset (fun f => f != NMEA_HAS_CHECKSUM)) = 63 ∧
    orOf (flagSubset (fun f => f != NMEA_HAS_CHECKSUM)) &&& NMEA_HAS_CHECKSUM.val = 2 ∧
    sumOf (flagSubset (fun f => f != NMEA_HAS_CHECKSUM)) = 75 ∧
    sumOf (flagSubset (fun f => f != NMEA_HAS_CHECKSUM)) &&& NMEA_HAS_CHECKSUM.val = 2 ∧
    NMEA_HAS_CHECKSUM ∉ flagSubset (fun f => f != NMEA_HAS_CHECKSUM) ∧
    ¬ (∀ (S : nmea_check_t → Bool) (f : nmea_check_t), f ∈ checkFlags →
        (orOf (flagSubset S) &&& f.val ≠ 0 ↔ f ∈ flagSubset S)) := by
  refine ⟨by decide, ten_not_two_pow, by decide, by decide, by decide, by decide, by decide,
    by decide, by decide, by decide, by decide, ?_⟩
  intro h
  have h2 := (h (fun f => f == NMEA_HAS_SOURCE) NMEA_HAS_CHECKSUM (by decide)).1 (by decide)
  exact absurd h2 (by decide)

/-- The subset of the flags given by six membership bits. -/
theorem flagSubset_eq (S : nmea_check_t → Bool) :
    flagSubset S =
      (if S NMEA_HAS_DOLLAR then [NMEA_HAS_DOLLAR] else []) ++
      ((if S NMEA_HAS_CHECKSUM then [NMEA_HAS_CHECKSUM] else []) ++
      ((if S NMEA_HAS_NAME then [NMEA_HAS_NAME] else []) ++
      ((if S NMEA_HAS_SOURCE then [NMEA_HAS_SOURCE] else []) ++
      ((if S NMEA_HAS_SENTENCE then [NMEA_HAS_SENTENCE] else []) ++
      (if S NMEA_HAS_SENTENCE_P then [NMEA_HAS_SENTENCE_P] else []))))) := by
  unfold flagSubset checkFlags
  simp only [List.filter_cons, List.filter_nil]
  cases S NMEA_HAS_DOLLAR <;> cases S NMEA_HAS_CHECKSUM <;>
  cases S NMEA_HAS_NAME <;> cases S NMEA_HAS_SOURCE <;>
  cases S NMEA_HAS_SENTENCE <;> cases S NMEA_HAS_SENTENCE_P <;> rfl

/-- What the decimal values do support: a code formed by adding the values
of a subset of the flags determines the subset, each flag being read from
its decimal digit. -/
theorem sumOf_flagSubset_decodes (S : nmea_check_t → Bool) (f : nmea_check_t) :
    f ∈ flagSubset S ↔ digitTest (sumOf (flagSubset S)) f = true := by
  rw [flagSubset_eq]
  generalize S NMEA_HAS_DOLLAR = b1
  generalize S NMEA_HAS_CHECKSUM = b2
  generalize S NMEA_HAS_NAME = b3
  generalize S NMEA_HAS_SOURCE = b4
  generalize S NMEA_HAS_SENTENCE = b5
  generalize S NMEA_HAS_SENTENCE_P = b6
  cases b1 <;> cases b2 <;> cases b3 <;> cases b4 <;> cases b5 <;> cases b6 <;>
    cases f <;> decide

/-! ## Initial timestamps -/

/-- C4: at construction `lastUpdate`, `lastFix`, `lastTime` and `lastDate`
all hold the same non-zero `uint32_t` value 2000000000, which lies strictly
between one quarter and three quarters of `2 ^ 32` (the half-range being
2147483648). -/
theorem init_timestamps_near_half_range :
    Timestamps.init.lastUpdate = 2000000000 ∧
    Timestamps.init.lastFix = Timestamps.init.lastUpdate ∧
    Timestamps.init.lastTime = Timestamps.init.lastUpdate ∧
    Timestamps.init.lastDate = Timestamps.init.lastUpdate ∧
    Timestamps.init.lastUpdate ≠ 0 ∧
    Timestamps.init.lastUpdate < UINT32_RANGE ∧
    UINT32_RANGE / 2 = 2147483648 ∧
    UINT32_RANGE / 4 < Timestamps.init.lastUpdate ∧
    Timestamps.init.lastUpdate < 3 * (UINT32_RANGE / 4) := by
  simp [Timestamps.init, UINT32_RANGE]

/-- C9: with `last` at its initial value 2000000000 (any of the four
last-event timestamps) and a clock reading `now` below 2000000000, the
wrapped elapsed time `(now - last) mod 2 ^ 32` equals `now + 2294967296`,
is strictly greater than `now`, and is strictly greater than the elapsed
time `now - t` of every event stamped at a time `t` since start-up
(`t ≤ now`), which itself is at most `now`. -/
theorem never_updated_reads_far_in_past (now last : Nat)
    (hlast : last ∈ [Timestamps.init.lastUpdate, Timestamps.init.lastFix,
      Timestamps.init.lastTime, Timestamps.init.lastDate])
    (hnow : now < 2000000000) :
    elapsedMillis now last = now + 2294967296 ∧
    now < elapsedMillis now last ∧
    ∀ t, t ≤ now →
      elapsedMillis now t = now - t ∧ elapsedMillis now t ≤ now ∧
      elapsedMillis now t < elapsedMillis now last := by
  have hl : last = 2000000000 := by
    simp [Timestamps.init, UINT32_RANGE] at hlast
    exact hlast
  subst hl
  have h1 : elapsedMillis now 2000000000 = now + 2294967296 := by
    unfold elapsedMillis UINT32_RANGE
    omega
  refine ⟨h1, by omega, ?_⟩
  intro t ht
  have h2 : elapsedMillis now t = now - t := by
    unfold elapsedMillis UINT32_RANGE
    omega
  omega

/-- C9 (witness): one minute after start-up a never-updated timestamp reads
as 2295027296 ms old, older than an event stamped at start-up. -/
theorem never_updated_reads_far_in_past_witness :
    elapsedMillis 60000 Timestamps.init.lastFix = 60000 + 2294967296 ∧
    60000 < elapsedMillis 60000 Timestamps.init.lastFix ∧
    ∀ t, t ≤ 60000 →
      elapsedMillis 60000 t = 60000 - t ∧ elapsedMillis 60000 t ≤ 60000 ∧
      elapsedMillis 60000 t < elapsedMillis 60000 Timestamps.init.lastFix :=
  never_updated_reads_far_in_past 60000 Timestamps.init.lastFix
    (by simp [Timestamps.init]) (by decide)

/-! ## The identifier tables -/

/-- C6 (counterexample): the entry "ZZZ" of `sources` needs four `char`s
with its terminating 0, one more than `NMEA_MAX_SOURCE_ID` (3), the size of
`thisSource` and `lastSource`; it is the only entry that does not fit. -/
theorem source_ZZZ_exceeds_NMEA_MAX_SOURCE_ID :
    "ZZZ" ∈ sources ∧ storageSize "ZZZ" = 4 ∧ NMEA_MAX_SOURCE_ID = 3 ∧
    ¬ storageSize "ZZZ" ≤ NMEA_MAX_SOURCE_ID ∧
    sources.filter (fun s => decide (NMEA_MAX_SOURCE_ID < storageSize s)) = ["ZZZ"] ∧
    ¬ (∀ s ∈ sources, storageSize s ≤ NMEA_MAX_SOURCE_ID) := by
  decide

/-- C6 (amended): every entry of `sources` other than "ZZZ", the entry that
ends each of the three tables, is a two-letter id and fits `thisSource` and
`lastSource` with its terminating 0: `length s + 1 ≤ NMEA_MAX_SOURCE_ID`.
These entries are II, WI, GP and GN. -/
theorem sources_fit_except_ZZZ (s : String) (hs : s ∈ sources) (hne : s ≠ "ZZZ") :
    storageSize s ≤ NMEA_MAX_SOURCE_ID ∧ s.length = 2 ∧
    s ∈ ["II", "WI", "GP", "GN"] ∧
    sources = ["II", "WI", "GP", "GN"] ++ ["ZZZ"] ∧
    sources.getLast? = some "ZZZ" ∧ sentences_parsed.getLast? = some "ZZZ" ∧
    sentences_known.getLast? = some "ZZZ" := by
  simp only [sources, List.mem_cons, List.mem_singleton, List.not_mem_nil, or_false] at hs
  rcases hs with rfl | rfl | rfl | rfl | rfl
  · decide
  · decide
  · decide
  · decide
  · exact absurd rfl hne

/-- C6 (witness): the source id "GP". -/
theorem sources_fit_except_ZZZ_witness :
    storageSize "GP" ≤ NMEA_MAX_SOURCE_ID ∧ "GP".length = 2 ∧
    "GP" ∈ ["II", "WI", "GP", "GN"] ∧
    sources = ["II", "WI", "GP", "GN"] ++ ["ZZZ"] ∧
    sources.getLast? = some "ZZZ" ∧ sentences_parsed.getLast? = some "ZZZ" ∧
    sentences_known.getLast? = some "ZZZ" :=
  sources_fit_except_ZZZ "GP" (by decide) (by decide)

/-- C7 (counterexample): the table as a whole is not longest-first: position
0 holds the 2-character "II" and the later position 4 the 3-character
"ZZZ". -/
theorem sources_not_longest_first :
    sources[0]? = some "II" ∧ sources[4]? = some "ZZZ" ∧
    "II".length < "ZZZ".length ∧
    ¬ sources.Pairwise (fun a b => b.length ≤ a.length) := by
  decide

/-- C7 (amended): leaving out "ZZZ", the entry that ends the table, `sources`
is in longest-first order: for entries at positions `i < j`, the later one
not being "ZZZ" (the earlier one then is not "ZZZ" either),
`length sources[i] ≥ length sources[j]`; the table without its last entry
is pairwise longest-first, so a first-match scan of these entries never
tries a shorter id before a longer one. -/
theorem sources_longest_first_except_ZZZ (i j : Nat) (s t : String) (hij : i < j)
    (hs : sources[i]? = some s) (ht : sources[j]? = some t) (htne : t ≠ "ZZZ") :
    t.length ≤ s.length ∧ s ≠ "ZZZ" ∧
    sources.dropLast.Pairwise (fun a b => b.length ≤ a.length) ∧
    sources.getLast? = some "ZZZ" ∧ "ZZZ" ∉ sources.dropLast := by
  have hj : j < 5 := by
    by_contra hge
    have : sources[j]? = none := List.getElem?_eq_none (by simp [sources]; omega)
    simp [this] at ht
  have hi : i < 4 := by omega
  refine ⟨?_, ?_, by decide, by decide, by decide⟩
  · interval_cases i <;> interval_cases j <;>
      simp [sources] at hs ht <;> subst hs <;> subst ht <;>
      first
        | decide
        | exact absurd rfl htne
  · interval_cases i <;> simp [sources] at hs <;> subst hs <;> decide

/-- C7 (witness): positions 0 and 2, "II" before "GP". -/
theorem sources_longest_first_except_ZZZ_witness :
    "GP".length ≤ "II".length ∧ "II" ≠ "ZZZ" ∧
    sources.dropLast.Pairwise (fun a b => b.length ≤ a.length) ∧
    sources.getLast? = some "ZZZ" ∧ "ZZZ" ∉ sources.dropLast :=
  sources_longest_first_except_ZZZ 0 2 "II" "GP" (by decide) (by decide) (by decide)
    (by decide)

/-- C8 (counterexample): "ZZZ" is an entry of both sentence tables, and its
classification depends on the table searched first: parseable when
`sentences_parsed` is searched first, known when `sentences_known` is. -/
theorem sentence_tables_share_ZZZ :
    "ZZZ" ∈ sentences_known ∧ "ZZZ" ∈ sentences_parsed ∧
    classifySentence true "ZZZ" = SentenceClass.parseable ∧
    classifySentence false "ZZZ" = SentenceClass.known := by
  decide

/-- C8 (amended): "ZZZ", the last entry of every table, is the only common
entry: a sentence id other than "ZZZ" is never an entry of both
`sentences_known` and `sentences_parsed`, and its classification is the
same whichever table is searched first. -/
theorem sentence_tables_disjoint_except_ZZZ (id : String) (h : id ≠ "ZZZ") :
    ¬ (id ∈ sentences_known ∧ id ∈ sentences_parsed) ∧
    classifySentence true id = classifySentence false id ∧
    sentences_known.filter (fun s => s ∈ sentences_parsed) = ["ZZZ"] ∧
    sources.getLast? = some "ZZZ" ∧ sentences_parsed.getLast? = some "ZZZ" ∧
    sentences_known.getLast? = some "ZZZ" := by
  have hk : firstExactMatch sentences_known id = none := by
    simp [firstExactMatch, sentences_known, Ne.symm h]
  refine ⟨fun hb => h (by simpa [sentences_known] using hb.1), ?_, by decide, by decide,
    by decide, by decide⟩
  simp [classifySentence, hk]

/-- C8 (witness): the sentence id "GGA". -/
theorem sentence_tables_disjoint_except_ZZZ_witness :
    ¬ ("GGA" ∈ sentences_known ∧ "GGA" ∈ sentences_parsed) ∧
    classifySentence true "GGA" = classifySentence false "GGA" ∧
    sentences_known.filter (fun s => s ∈ sentences_parsed) = ["ZZZ"] ∧
    sources.getLast? = some "ZZZ" ∧ sentences_parsed.getLast? = some "ZZZ" ∧
    sentences_known.getLast? = some "ZZZ" :=
  sentence_tables_disjoint_except_ZZZ "GGA" (by decide)

/-- A first-match scan returns the unique matching element, when matches are
unique. -/
theorem find?_eq_some_of_unique {α : Type} (p : α → Bool) (l : List α)
    (huniq : ∀ a ∈ l, ∀ b ∈ l, p a = true → p b = true → a = b)
    (a : α) (ha : a ∈ l) (hp : p a = true) : l.find? p = some a := by
  cases h : l.find? p with
  | none => exact absurd hp (List.find?_eq_none.1 h a ha)
  | some b =>
    have hb : b ∈ l := List.mem_of_find?_eq_some h
    have hpb : p b = true := List.find?_some h
    rw [huniq b hb a ha hpb hp]

/-- No entry of `sources` is a prefix of another entry. -/
theorem sources_prefix_eq :
    ∀ s ∈ sources, ∀ t ∈ sources, s.toList <+: t.toList → s = t := by
  decide

/-- C10: `sources` is duplicate-free and prefix-free (for entries at two
distinct positions neither is a prefix of the other); hence at most one
entry is a prefix of a given name token, and a first-match scan of the
table in any order (any permutation `l` of it) finds the same source as the
scan in table order. -/
theorem sources_prefix_free (token : List Char) (l : List String)
    (hl : l.Perm sources) :
    sources.Nodup ∧
    sources.Pairwise (fun a b => ¬ a.toList <+: b.toList ∧ ¬ b.toList <+: a.toList) ∧
    (∀ s ∈ sources, ∀ t ∈ sources, s.toList <+: token → t.toList <+: token → s = t) ∧
    firstPrefixMatch l token = firstPrefixMatch sources token := by
  have huniq : ∀ s ∈ sources, ∀ t ∈ sources,
      s.toList <+: token → t.toList <+: token → s = t := by
    intro s hs t ht hps hpt
    rcases List.prefix_or_prefix_of_prefix hps hpt with h | h
    · exact sources_prefix_eq s hs t ht h
    · exact (sources_prefix_eq t ht s hs h).symm
  refine ⟨by decide, by decide, huniq, ?_⟩
  unfold firstPrefixMatch
  cases h : sources.find? (fun s => s.toList.isPrefixOf token) with
  | none =>
    rw [List.find?_eq_none] at h ⊢
    intro x hx
    exact h x (hl.mem_iff.1 hx)
  | some a =>
    have ha : a ∈ sources := List.mem_of_find?_eq_some h
    have hpa := List.find?_some h
    refine find?_eq_some_of_unique _ l ?_ a (hl.mem_iff.2 ha) hpa
    intro x hx y hy hpx hpy
    exact huniq x (hl.mem_iff.1 hx) y (hl.mem_iff.1 hy)
      (List.isPrefixOf_iff_prefix.1 hpx) (List.isPrefixOf_iff_prefix.1 hpy)

/-- C10 (witness): the name token "GPGGA" and the table scanned backwards. -/
theorem sources_prefix_free_witness :
    sources.Nodup ∧
    sources.Pairwise (fun a b => ¬ a.toList <+: b.toList ∧ ¬ b.toList <+: a.toList) ∧
    (∀ s ∈ sources, ∀ t ∈ sources,
      s.toList <+: "GPGGA".toList → t.toList <+: "GPGGA".toList → s = t) ∧
    firstPrefixMatch sources.reverse "GPGGA".toList =
      firstPrefixMatch sources "GPGGA".toList :=
  sources_prefix_free "GPGGA".toList sources.reverse (List.reverse_perm sources)

/-! ## Checksum round trip -/

/-- The exclusive-or of bytes, started from a byte, is a byte. -/
theorem foldl_xor_lt (cs : List Char) (hbyte : ∀ c ∈ cs, c.toNat < 256) :
    ∀ acc : Nat, acc < 256 → cs.foldl (fun acc c => acc ^^^ c.toNat) acc < 256 := by
  induction cs with
  | nil => intro acc h; simpa using h
  | cons c cs ih =>
    intro acc h
    simp only [List.foldl_cons]
    apply ih (fun d hd => hbyte d (List.mem_cons_of_mem c hd))
    have hc : c.toNat < 2 ^ 8 := hbyte c (List.mem_cons_self c cs)
    have ha : acc < 2 ^ 8 := h
    exact Nat.xor_lt_two_pow ha hc

/-- The checksum of a string of bytes is a byte. -/
theorem xorChecksum_lt (cs : List Char) (hbyte : ∀ c ∈ cs, c.toNat < 256) :
    xorChecksum cs < 256 :=
  foldl_xor_lt cs hbyte 0 (by decide)

/-- Uppercase hex digits are fixed by `toUpper`. -/
theorem hexDigit_toUpper (k : Nat) (hk : k < 16) : (hexDigit k).toUpper = hexDigit k := by
  unfold hexDigit
  interval_cases k <;> decide

/-- The digit of a value below sixteen is one of `0123456789ABCDEF`. -/
theorem hexDigit_mem (k : Nat) (hk : k < 16) : hexDigit k ∈ "0123456789ABCDEF".toList := by
  unfold hexDigit
  interval_cases k <;> decide

/-- A line that ends in `*` and the hex encoding of the checksum of its body
passes the checksum check, whatever follows the two digits. -/
theorem checksumValid_of_suffix (c0 : Char) (body rest : List Char)
    (hstar : '*' ∉ body) (hbyte : ∀ c ∈ body, c.toNat < 256) :
    checksumValid (c0 :: (body ++ '*' :: (hexByte (xorChecksum body) ++ rest))) = true := by
  have hp : ∀ a ∈ body, (fun c : Char => c != '*') a = true := by
    intro a ha
    have : a ≠ '*' := fun h => hstar (h ▸ ha)
    simpa using this
  have hlt := xorChecksum_lt body hbyte
  have h1 : (hexDigit (xorChecksum body / 16)).toUpper = hexDigit (xorChecksum body / 16) :=
    hexDigit_toUpper _ (by omega)
  have h2 : (hexDigit (xorChecksum body % 16)).toUpper = hexDigit (xorChecksum body % 16) :=
    hexDigit_toUpper _ (by omega)
  have htail : checksumTail (c0 :: (body ++ '*' :: (hexByte (xorChecksum body) ++ rest)))
      = '*' :: hexDigit (xorChecksum body / 16) :: hexDigit (xorChecksum body % 16) :: rest := by
    simp only [checksumTail, List.drop_succ_cons, List.drop_zero]
    rw [List.dropWhile_append_of_pos hp]
    simp [hexByte]
  have hspan : checksumSpan (c0 :: (body ++ '*' :: (hexByte (xorChecksum body) ++ rest)))
      = body := by
    simp only [checksumSpan, List.drop_succ_cons, List.drop_zero]
    rw [List.takeWhile_append_of_pos hp]
    simp
  unfold checksumValid
  rw [htail, hspan]
  simp [hexByte, h1, h2]

/-- A flag is in the result of `check` exactly when its check passes. -/
theorem mem_check_iff (nmea : List Char) (f : nmea_check_t) :
    f ∈ check nmea ↔ f ∈ checkFlags ∧ passes nmea f = true := by
  simp [check, flagSubset, List.mem_filter]

/-- C2: for a command string `$` followed by `body`, where `body` holds no
`*` and every character is a byte, `addChecksum` appends exactly five
characters: `*`, the two uppercase hex digits (high digit first, each one of
`0123456789ABCDEF`) of the exclusive-or of the characters after `$` (a
value below 256), then CR and LF; and `check` on the result reports
`NMEA_HAS_CHECKSUM`. -/
theorem addChecksum_check_roundtrip (body : List Char)
    (hstar : '*' ∉ body) (hbyte : ∀ c ∈ body, c.toNat < 256) :
    addChecksum ('$' :: body) =
      '$' :: body ++ ['*', hexDigit (xorChecksum body / 16),
        hexDigit (xorChecksum body % 16), Char.ofNat 13, Char.ofNat 10] ∧
    (addChecksum ('$' :: body)).length = ('$' :: body).length + 5 ∧
    xorChecksum body < 256 ∧
    hexDigit (xorChecksum body / 16) ∈ "0123456789ABCDEF".toList ∧
    hexDigit (xorChecksum body % 16) ∈ "0123456789ABCDEF".toList ∧
    NMEA_HAS_CHECKSUM ∈ check (addChecksum ('$' :: body)) := by
  have hlt := xorChecksum_lt body hbyte
  refine ⟨by simp [addChecksum, hexByte], by simp [addChecksum, hexByte],
    hlt, hexDigit_mem _ (by omega), hexDigit_mem _ (by omega), ?_⟩
  rw [mem_check_iff]
  refine ⟨by decide, ?_⟩
  have h := checksumValid_of_suffix '$' body [Char.ofNat 13, Char.ofNat 10] hstar hbyte
  simpa [passes, addChecksum] using h

/-- C2 (witness): the command `$PMTK220,1000` gets the suffix `*1F`, CR, LF
and then passes the checksum check. -/
theorem addChecksum_check_roundtrip_witness :
    addChecksum ('$' :: "PMTK220,1000".toList) =
      '$' :: "PMTK220,1000".toList ++ ['*', hexDigit (xorChecksum "PMTK220,1000".toList / 16),
        hexDigit (xorChecksum "PMTK220,1000".toList % 16), Char.ofNat 13, Char.ofNat 10] ∧
    (addChecksum ('$' :: "PMTK220,1000".toList)).length =
      ('$' :: "PMTK220,1000".toList).length + 5 ∧
    xorChecksum "PMTK220,1000".toList < 256 ∧
    hexDigit (xorChecksum "PMTK220,1000".toList / 16) ∈ "0123456789ABCDEF".toList ∧
    hexDigit (xorChecksum "PMTK220,1000".toList % 16) ∈ "0123456789ABCDEF".toList ∧
    NMEA_HAS_CHECKSUM ∈ check (addChecksum ('$' :: "PMTK220,1000".toList)) :=
  addChecksum_check_roundtrip "PMTK220,1000".toList (by decide) (by decide)

/-! ## Coordinate decoding -/

/-- The name token of a line that starts with `$`, a source, a sentence id
and a comma. -/
theorem nameToken_of_line (src id : String) (rest : List Char)
    (hsrc : ∀ c ∈ src.toList, c ≠ ',') (hid : ∀ c ∈ id.toList, c ≠ ',') :
    nameToken ('$' :: (src.toList ++ (id.toList ++ ',' :: rest))) = src.toList ++ id.toList := by
  have h1 : ∀ c ∈ src.toList, (fun c : Char => c != ',') c = true := by
    intro c hc; simpa using hsrc c hc
  have h2 : ∀ c ∈ id.toList, (fun c : Char => c != ',') c = true := by
    intro c hc; simpa using hid c hc
  simp only [nameToken, List.drop_succ_cons, List.drop_zero]
  rw [List.takeWhile_append_of_pos h1, List.takeWhile_append_of_pos h2]
  simp

/-- C5: a sentence kind for which the field decoder has a branch (without
extensions these are GGA, GLL, GSA and RMC) is an entry of
`sentences_parsed`; it is classified as parseable whichever table is
searched first, and `check` on a line whose name token is a recognized
source followed by that sentence id reports `NMEA_HAS_SOURCE`,
`NMEA_HAS_SENTENCE` and `NMEA_HAS_SENTENCE_P`. -/
theorem decoded_kinds_are_parseable (id src : String) (rest : List Char)
    (hid : (decoderFor id).isSome = true) (hsrc : src ∈ sources) :
    id ∈ ["GGA", "GLL", "GSA", "RMC"] ∧ id ∈ sentences_parsed ∧
    firstExactMatch sentences_parsed id = some id ∧
    classifySentence true id = SentenceClass.parseable ∧
    classifySentence false id = SentenceClass.parseable ∧
    NMEA_HAS_SOURCE ∈ check ('$' :: (src.toList ++ (id.toList ++ ',' :: rest))) ∧
    NMEA_HAS_SENTENCE ∈ check ('$' :: (src.toList ++ (id.toList ++ ',' :: rest))) ∧
    NMEA_HAS_SENTENCE_P ∈ check ('$' :: (src.toList ++ (id.toList ++ ',' :: rest))) := by
  have hkind : id ∈ ["GGA", "GLL", "GSA", "RMC"] := by
    unfold decoderFor at hid
    split_ifs at hid with h1 h2 h3 h4
    · simp [h1]
    · simp [h2]
    · simp [h3]
    · simp [h4]
    · simp at hid
  refine ⟨hkind, ?_⟩
  simp only [mem_check_iff, passes]
  simp only [sources, List.mem_cons, List.mem_singleton, List.not_mem_nil, or_false] at hsrc hkind
  rcases hkind with rfl | rfl | rfl | rfl <;> rcases hsrc with rfl | rfl | rfl | rfl | rfl <;>
    rw [nameToken_of_line _ _ rest (by decide) (by decide)] <;> decide

/-- C5 (witness): the sentence id GGA after the source GP. -/
theorem decoded_kinds_are_parseable_witness :
    "GGA" ∈ ["GGA", "GLL", "GSA", "RMC"] ∧ "GGA" ∈ sentences_parsed ∧
    firstExactMatch sentences_parsed "GGA" = some "GGA" ∧
    classifySentence true "GGA" = SentenceClass.parseable ∧
    classifySentence false "GGA" = SentenceClass.parseable ∧
    NMEA_HAS_SOURCE ∈ check ('$' :: ("GP".toList ++ ("GGA".toList ++ ',' :: "1*00".toList))) ∧
    NMEA_HAS_SENTENCE ∈ check ('$' :: ("GP".toList ++ ("GGA".toList ++ ',' :: "1*00".toList))) ∧
    NMEA_HAS_SENTENCE_P ∈
      check ('$' :: ("GP".toList ++ ("GGA".toList ++ ',' :: "1*00".toList))) :=
  decoded_kinds_are_parseable "GGA" "GP" "1*00".toList (by rfl) (by decide)

end Adafruit_GPS
